import Mathlib

/-
Verification development for the AOUNet conversation-orchestration core
(src/graph/graph.py, src/graph/schema.py, src/graph/tools.py).

The Python code is shallowly embedded: LangChain message objects become a
closed inductive `Message`; the LangGraph state dict becomes the structure
`AgentState`; every external blocking call (model invocation, tool
invocation, vector-collection query) is a function parameter returning
`Except String _`, where `Except.error` stands for a raised Python
exception.  Python dictionaries used as counters become association lists
with first-match lookup and in-place replacement, mirroring dict get/set.
-/

namespace AOUNet

/-- A tool call issued by the model (LangChain tool_call dict):
tool name, structured arguments (kept opaque as a string), and the
call identifier used to correlate the eventual ToolMessage. -/
structure ToolCall where
  name : String
  args : String
  id : String
  deriving DecidableEq, Repr

/-- Content of a message: a plain string, or the LangChain Studio
structured format, a list of items each carrying a type tag and a text
payload (Python: a list of dicts with keys type and text). -/
inductive Content where
  | text (s : String)
  | items (l : List (String × String))
  deriving DecidableEq, Repr

/-- The message variants of the thread history, embedding LangChain's
HumanMessage, AIMessage (with its tool_calls attribute), SystemMessage
and ToolMessage (with its tool_call_id). -/
inductive Message where
  | human (content : Content)
  | ai (content : String) (tool_calls : List ToolCall)
  | system (content : String)
  | tool (content : String) (tool_call_id : String)
  deriving DecidableEq, Repr

/-- Python hasattr plus truthiness: the tool_calls of an AIMessage, and
the empty list for every message kind that has no tool_calls attribute. -/
def toolCallsOf : Message → List ToolCall
  | Message.ai _ tcs => tcs
  | _ => []

def isHumanB : Message → Bool
  | Message.human _ => true
  | _ => false

def isAIB : Message → Bool
  | Message.ai _ _ => true
  | _ => false

def isSystemB : Message → Bool
  | Message.system _ => true
  | _ => false

def isToolB : Message → Bool
  | Message.tool _ _ => true
  | _ => false

/-- The tool_call_id of a ToolMessage, and the empty string otherwise. -/
def toolIdOf : Message → String
  | Message.tool _ i => i
  | _ => ""

/-- A registered tool: a name and an invocation function; Except.error
models a raised Python exception.  The coercion str(tool_res) applied in
tool_handler is total, so tool output is modelled directly as a string. -/
structure Tool where
  name : String
  invoke : String → Except String String

/-- Python dict lookup tool_call_count.get(name, 0) over an association
list. -/
def countGet : List (String × Nat) → String → Nat
  | [], _ => 0
  | p :: rest, name => if p.1 = name then p.2 else countGet rest name

/-- Python dict assignment tool_call_count[name] = v over an association
list: replace the first binding of the key, or append a new binding. -/
def countSet : List (String × Nat) → String → Nat → List (String × Nat)
  | [], name, v => [(name, v)]
  | p :: rest, name, v =>
      if p.1 = name then (name, v) :: rest else p :: countSet rest name v

/-- Python str.lower, computed over the character list of the string. -/
def lowerString (s : String) : String :=
  ⟨s.data.map Char.toLower⟩

/-- Case-insensitive registry lookup, embedding
next((t for t in tools if t.name.lower() == tool_call["name"].lower()), None). -/
def findTool : List Tool → String → Option Tool
  | [], _ => none
  | t :: rest, name =>
      if lowerString t.name = lowerString name then some t else findTool rest name

/-- The unknown-tool error text of tool_handler. -/
def notFoundText (name : String) : String :=
  "Error: Tool \x27" ++ name ++ "\x27 not found"

/-- The cap-exceeded warning text of tool_handler. -/
def warningText (name : String) (current : Nat) : String :=
  "⚠️ Tool \x27" ++ name ++ "\x27 has already been called " ++ toString current
    ++ " times. Maximum calls reached. Please provide an answer with the information you have."

/-- The caught-exception error text of tool_handler. -/
def execErrorText (name e : String) : String :=
  "Error executing tool \x27" ++ name ++ "\x27: " ++ e
    ++ ". Please try again with different parameters."

/-- The body of tool_handler's for-loop over the tool calls of the last
message, threading the mutable result list and counter dict.  The third
component is ghost instrumentation recording each actual call of a
tool's invoke function as (requested name, returned normally); the first
two components mirror the source exactly.  Branches, in source order:
unknown tool, cap reached (no invocation, no increment), successful
invocation (increment after the call), raised exception (caught; the
increment after the call is skipped). -/
def dispatch (tools : List Tool) (max_calls : Nat) :
    List ToolCall → List (String × Nat) →
      List Message × List (String × Nat) × List (String × Bool)
  | [], count => ([], count, [])
  | tc :: rest, count =>
    match findTool tools tc.name with
    | none =>
        let r := dispatch tools max_calls rest count
        (Message.tool (notFoundText tc.name) tc.id :: r.1, r.2)
    | some t =>
        let current := countGet count tc.name
        if current ≥ max_calls then
          let r := dispatch tools max_calls rest count
          (Message.tool (warningText tc.name current) tc.id :: r.1, r.2)
        else
          match t.invoke tc.args with
          | Except.ok tool_res =>
              let count2 := countSet count tc.name (current + 1)
              let r := dispatch tools max_calls rest count2
              (Message.tool tool_res tc.id :: r.1, r.2.1, (tc.name, true) :: r.2.2)
          | Except.error e =>
              let r := dispatch tools max_calls rest count
              (Message.tool (execErrorText tc.name e) tc.id :: r.1,
               r.2.1, (tc.name, false) :: r.2.2)

/-- Embedding of tool_handler: reads the cap from the state with Python
default state.get("max_tool_calls_per_tool", 2), then folds the
dispatch loop over the tool calls of the last message (passed here
explicitly) starting from the state's counter dict. -/
def tool_handler (tools : List Tool) (max_tool_calls_per_tool : Option Nat)
    (tool_calls : List ToolCall) (tool_call_count : List (String × Nat)) :
    List Message × List (String × Nat) × List (String × Bool) :=
  dispatch tools (max_tool_calls_per_tool.getD 2) tool_calls tool_call_count

/-- The LangGraph state dict as the nodes of src/graph/graph.py read and
write it: the message list, the channels written by the retrieval node
and read by call_llm, the per-exchange tool counter dict read and
written by tool_handler, and the optional configured cap (Python
state.get("max_tool_calls_per_tool", 2)).  The retrieval_result and
query fields follow the nodes' usage and the build/lib/graph/schema.py
declaration of AgentState. -/
structure AgentState where
  messages : List Message
  retrieval_result : List String
  query : String
  tool_call_count : List (String × Nat)
  max_tool_calls_per_tool : Option Nat
  deriving DecidableEq, Repr

/-- The shape of a ChromaDB query reply as the retrieval node consumes
it: the value under the documents key, a list of per-query document
lists (absent key is modelled as the empty list, which Python
truthiness treats identically). -/
structure QueryResult where
  documents : List (List String)
  deriving DecidableEq, Repr

/-- A vector collection: its query call is a blocking external call that
may raise (Except.error). -/
structure Collection where
  query : String → Except String QueryResult

/-- Content of an arbitrary message as the retrieval node reads it
(last_message.content). -/
def msgContent : Message → Content
  | Message.human c => c
  | Message.ai c _ => Content.text c
  | Message.system c => Content.text c
  | Message.tool c _ => Content.text c

/-- Query extraction of the retrieval node: a plain string is used
directly; for the LangChain Studio structured format, the text of the
first item tagged with type text, defaulting to the empty string. -/
def extractText : Content → String
  | Content.text s => s
  | Content.items l =>
      match l.find? (fun p => p.1 == "text") with
      | some p => p.2
      | none => ""

/-- The for-loop of the retrieval node over the two collections: query
each in order, extend results with the first nested document list when
it is non-empty, and catch any exception (print and continue). -/
def gatherResults : List Collection → String → List String
  | [], _ => []
  | c :: rest, q =>
      match c.query q with
      | Except.error _ => gatherResults rest q
      | Except.ok r =>
          match r.documents with
          | [] => gatherResults rest q
          | d :: _ => d ++ gatherResults rest q

/-- The update dict returned by the retrieval node. -/
structure RetrievalUpdate where
  retrieval_result : List String
  query : String
  messages : List Message
  deriving DecidableEq, Repr

/-- Embedding of the retrieval node.  Python state["messages"][-1]
raises IndexError on an empty list, modelled by the error branch; an
empty extracted query short-circuits to an empty update; otherwise both
collections are queried with per-collection exception handling. -/
def retrieval (collections : List Collection) (state : AgentState) :
    Except String RetrievalUpdate :=
  match state.messages.getLast? with
  | none => Except.error "IndexError: list index out of range"
  | some last_message =>
      let query := extractText (msgContent last_message)
      if query = "" then
        Except.ok ⟨[], "", state.messages⟩
      else
        Except.ok ⟨gatherResults collections query, query, state.messages⟩

/-- The RETRIEVAL_PROMPT template of src/graph/prompt.py with query and
context substituted. -/
def RETRIEVAL_PROMPT (query context : String) : String :=
  "\nYou have access to the following context:\n\n<BEGIN OF QUERY>\nUser Query: "
    ++ query
    ++ "\n<END OF QUERY/>\n\n<BEGIN OF CONTEXT>\n"
    ++ context
    ++ "\n<END OF CONTEXT/>\n\nInstructions:\n- If you have enough information, provide your answer directly (no tool calls)\n- If you need more information, use \x27search_aou_site\x27 and call it only 1 time\n- Answer clearly and concisely\n"

/-- The contents of all ToolMessages in the history, as call_llm
collects them. -/
def toolMsgContents (msgs : List Message) : List String :=
  msgs.filterMap (fun m =>
    match m with
    | Message.tool c _ => some c
    | _ => none)

/-- Context assembly of call_llm: the retrieved-documents header and the
retrieval results, then, when any ToolMessage is present, the
additional-search-results header and the tool outputs, joined by
newlines. -/
def combined_context (s : AgentState) : String :=
  let all_context_parts := "=== Retrieved Documents ===" :: s.retrieval_result
  let tool_results := toolMsgContents s.messages
  let all_context_parts :=
    if tool_results = [] then all_context_parts
    else all_context_parts ++ ["\n=== Additional Search Results ==="] ++ tool_results
  String.intercalate "\n" all_context_parts

/-- The model reply: an AIMessage with final text and the tool_calls
attribute. -/
structure AIMsg where
  content : String
  tool_calls : List ToolCall
  deriving DecidableEq, Repr

/-- The external model invocation llm_with_tools.invoke: a blocking
call that may raise, in which case the error propagates (call_llm has
no handler). -/
def ModelFn : Type :=
  List Message → Except String AIMsg

/-- The message sequence call_llm passes to the model: the history
followed by a SystemMessage holding the substituted prompt.  The
SystemMessage is only part of the invocation input; call_llm returns
just the model reply as its message update. -/
def llmInput (s : AgentState) : List Message :=
  s.messages ++ [Message.system (RETRIEVAL_PROMPT s.query (combined_context s))]

/-- The nodes of the compiled graph of build_graph, plus its START and
END constants. -/
inductive Node where
  | START
  | retrievalNode
  | callLlm
  | toolHandlerNode
  | cleanupNode
  | END
  deriving DecidableEq, Repr

/-- Embedding of should_continue: route on the last message; no
tool_calls attribute or an empty tool_calls list routes to
cleanup_state, otherwise to tool_handler.  Python messages[-1] on an
empty history would raise, modelled by none. -/
def should_continue (messages : List Message) : Option Node :=
  match messages.getLast? with
  | none => none
  | some last_message =>
      if toolCallsOf last_message = [] then some Node.cleanupNode
      else some Node.toolHandlerNode

/-- The edge structure of build_graph: START to retrieval, retrieval to
call_llm, the conditional edge at call_llm decided by should_continue,
cleanup_state to END, and tool_handler back to call_llm. -/
def graphStep (messages : List Message) : Node → Option Node
  | Node.START => some Node.retrievalNode
  | Node.retrievalNode => some Node.callLlm
  | Node.callLlm => should_continue messages
  | Node.toolHandlerNode => some Node.callLlm
  | Node.cleanupNode => some Node.END
  | Node.END => none

/-- Python str.strip() yields the empty string exactly when every
character is whitespace. -/
def stripIsEmpty (s : String) : Bool :=
  s.data.all Char.isWhitespace

/-- Python str.startswith, computed over the character lists: the first
list is the candidate marker, the second the content. -/
def startsWithChars : List Char → List Char → Bool
  | [], _ => true
  | _ :: _, [] => false
  | a :: as, b :: bs => a == b && startsWithChars as bs

/-- The AIMessage filter of cleanup_state: non-empty content whose strip
is non-empty and which does not start with the reasoning marker
(messages starting with it are skipped by the scan, which keeps
looking further back). -/
def isFinalAI : Message → Bool
  | Message.ai c _ =>
      c != "" && !(stripIsEmpty c) && !(startsWithChars "reasoning:".data c.data)
  | _ => false

/-- Embedding of cleanup_state: the first HumanMessage found by a
forward scan with an immediate break (the source's loop, despite its
last-user-message comment), the last AIMessage with substantive
content found by a backward scan, kept in that order; retrieval_result
and query are cleared.  The update returned by the node is taken as
the resulting message history of the exchange. -/
def cleanup_state (s : AgentState) : AgentState :=
  let last_human_msg := s.messages.find? isHumanB
  let final_ai_msg := s.messages.reverse.find? isFinalAI
  let messages_to_keep :=
    (match last_human_msg with
     | some m => [m]
     | none => []) ++
    (match final_ai_msg with
     | some m => [m]
     | none => [])
  { s with messages := messages_to_keep, retrieval_result := [], query := "" }

/-- The persisted thread state of the compiled graph.  AgentState
inherits MessagesState, whose messages channel carries the
add_messages reducer; every message object in the channel carries the
id LangChain assigned to it (modelled as a natural number).  The other
channels are plain last-value channels. -/
structure GraphState where
  messages : List (Nat × Message)
  retrieval_result : List String
  query : String
  tool_call_count : List (String × Nat)
  max_tool_calls_per_tool : Option Nat
  deriving DecidableEq, Repr

/-- The message objects of the channel in order, as the node functions
read them (their logic never inspects the id). -/
def channelMsgs (g : GraphState) : List Message :=
  g.messages.map Prod.snd

/-- The state dict a node receives for a thread. -/
def nodeState (g : GraphState) : AgentState :=
  ⟨channelMsgs g, g.retrieval_result, g.query, g.tool_call_count,
   g.max_tool_calls_per_tool⟩

/-- The fresh id the reducer assigns to a message that arrives without
one (LangChain draws a fresh UUID, so it never collides with an id
already in the channel; determinized here as one past the maximum). -/
def freshId (channel : List (Nat × Message)) : Nat :=
  (channel.map Prod.fst).foldr max 0 + 1

/-- LangGraph's add_messages reducer, the merge applied to every update
a node returns on the messages channel: each update message with an id
already present replaces the existing message in place, each other
update message is appended (receiving a fresh id when it has none).
Nothing is ever removed — the RemoveMessage mechanism is not used
anywhere in the source. -/
def addMessages (channel : List (Nat × Message)) :
    List (Option Nat × Message) → List (Nat × Message)
  | [] => channel
  | (some i, m) :: rest =>
      if channel.any (fun p => p.1 = i) then
        addMessages (channel.map (fun p => if p.1 = i then (i, m) else p)) rest
      else
        addMessages (channel ++ [(i, m)]) rest
  | (none, m) :: rest =>
      addMessages (channel ++ [(freshId channel, m)]) rest

/-- The retrieval node applied to the thread: its update dict carries
retrieval_result, query, and messages = state["messages"] — the very
channel objects, so the merge replaces each in place.  A raised
IndexError propagates. -/
def retrieval_node (collections : List Collection) (g : GraphState) :
    Except String GraphState :=
  match retrieval collections (nodeState g) with
  | Except.error e => Except.error e
  | Except.ok u =>
      Except.ok { g with
        messages := addMessages g.messages (g.messages.map (fun p => (some p.1, p.2))),
        retrieval_result := u.retrieval_result,
        query := u.query }

/-- The call_llm node applied to the thread: the model receives the
history followed by the prompt SystemMessage, and the update is the
fresh reply alone, which the reducer appends.  A model exception is not
caught. -/
def call_llm (model : ModelFn) (g : GraphState) : Except String GraphState :=
  match model (llmInput (nodeState g)) with
  | Except.error e => Except.error e
  | Except.ok response =>
      Except.ok { g with
        messages := addMessages g.messages
          [(none, Message.ai response.content response.tool_calls)] }

/-- The tool_handler node applied to the thread: dispatch the tool
calls of the last message, merge the fresh ToolMessages (the reducer
appends them) and overwrite the counter channel. -/
def tool_handler_node (tools : List Tool) (g : GraphState) : GraphState :=
  let tcs := ((channelMsgs g).getLast?.map toolCallsOf).getD []
  let r := tool_handler tools g.max_tool_calls_per_tool tcs g.tool_call_count
  { g with
    messages := addMessages g.messages (r.1.map (fun m => (none, m))),
    tool_call_count := r.2.1 }

/-- The update cleanup_state returns, at the channel level: the scan of
cleanup_state over the channel objects, which therefore keep the ids
they carry in the channel. -/
def cleanupUpdate (channel : List (Nat × Message)) : List (Option Nat × Message) :=
  let last_human_msg := channel.find? (fun p => isHumanB p.2)
  let final_ai_msg := channel.reverse.find? (fun p => isFinalAI p.2)
  let messages_to_keep : List (Nat × Message) :=
    (match last_human_msg with
     | some p => [p]
     | none => []) ++
    (match final_ai_msg with
     | some p => [p]
     | none => [])
  messages_to_keep.map (fun p => (some p.1, p.2))

/-- The cleanup_state node applied to the thread: its kept messages are
existing channel objects, so the add_messages merge replaces each in
place and evicts nothing — the channel keeps every message of the
exchange; only retrieval_result and query are actually cleared. -/
def cleanup_node (g : GraphState) : GraphState :=
  { g with
    messages := addMessages g.messages (cleanupUpdate g.messages),
    retrieval_result := [],
    query := "" }

/-- The turn loop of the compiled graph after retrieval: call_llm, then
the conditional edge; the tool_handler branch merges the dispatched
ToolMessages and loops back with the updated counter; the cleanup
branch merges the cleanup update and ends the exchange.  Fuel models
LangGraph's recursion limit, whose exhaustion raises
GraphRecursionError. -/
def loop (model : ModelFn) (tools : List Tool) :
    Nat → GraphState → Except String GraphState
  | 0, _ => Except.error "GraphRecursionError"
  | Nat.succ fuel, g =>
      match call_llm model g with
      | Except.error e => Except.error e
      | Except.ok g1 =>
          match should_continue (channelMsgs g1) with
          | some Node.toolHandlerNode =>
              loop model tools fuel (tool_handler_node tools g1)
          | some Node.cleanupNode => Except.ok (cleanup_node g1)
          | _ => Except.error "IndexError: list index out of range"

/-- One full exchange of the compiled graph: the retrieval node, then
the turn loop until cleanup. -/
def runExchange (collections : List Collection) (model : ModelFn)
    (tools : List Tool) (fuel : Nat) (g : GraphState) :
    Except String GraphState :=
  match retrieval_node collections g with
  | Except.error e => Except.error e
  | Except.ok g1 => loop model tools fuel g1

/-- Number of UserTurns in a history. -/
def countHuman (msgs : List Message) : Nat :=
  (msgs.filter isHumanB).length

/-- Number of AssistantTurns in a history. -/
def countAI (msgs : List Message) : Nat :=
  (msgs.filter isAIB).length

/-- Number of ToolResults in a history. -/
def countTool (msgs : List Message) : Nat :=
  (msgs.filter isToolB).length

/-- Number of Directive (system) messages in a history. -/
def countSystem (msgs : List Message) : Nat :=
  (msgs.filter isSystemB).length

theorem isHumanB_shape (m : Message) (h : isHumanB m = true) :
    ∃ c, m = Message.human c := by
  cases m <;> simp_all [isHumanB]

theorem isFinalAI_shape (m : Message) (h : isFinalAI m = true) :
    ∃ c tcs, m = Message.ai c tcs := by
  cases m <;> simp_all [isFinalAI]

/-- The update cleanup_state returns is itself bounded: at most one
UserTurn, at most one AssistantTurn, no ToolResult, no Directive.  The
thread does not inherit this bound, because the add_messages reducer
merges the update by id instead of replacing the channel with it. -/
theorem cleanup_state_shape (s : AgentState) :
    countHuman (cleanup_state s).messages ≤ 1
      ∧ countAI (cleanup_state s).messages ≤ 1
      ∧ countTool (cleanup_state s).messages = 0
      ∧ countSystem (cleanup_state s).messages = 0 := by
  have hmsgs : (cleanup_state s).messages =
      (match s.messages.find? isHumanB with
       | some m => [m]
       | none => []) ++
      (match s.messages.reverse.find? isFinalAI with
       | some m => [m]
       | none => []) := rfl
  cases hh : s.messages.find? isHumanB with
  | none =>
      cases ha : s.messages.reverse.find? isFinalAI with
      | none =>
          rw [hmsgs, hh, ha]
          simp [countHuman, countAI, countTool, countSystem]
      | some a =>
          obtain ⟨c, tcs, rfl⟩ := isFinalAI_shape a (List.find?_some ha)
          rw [hmsgs, hh, ha]
          simp [countHuman, countAI, countTool, countSystem,
            isHumanB, isAIB, isToolB, isSystemB]
  | some h0 =>
      obtain ⟨c0, rfl⟩ := isHumanB_shape h0 (List.find?_some hh)
      cases ha : s.messages.reverse.find? isFinalAI with
      | none =>
          rw [hmsgs, hh, ha]
          simp [countHuman, countAI, countTool, countSystem,
            isHumanB, isAIB, isToolB, isSystemB]
      | some a =>
          obtain ⟨c, tcs, rfl⟩ := isFinalAI_shape a (List.find?_some ha)
          rw [hmsgs, hh, ha]
          simp [countHuman, countAI, countTool, countSystem,
            isHumanB, isAIB, isToolB, isSystemB]

theorem dispatch_ids (tools : List Tool) (mc : Nat) :
    ∀ (calls : List ToolCall) (count : List (String × Nat)),
      ((dispatch tools mc calls count).1).map toolIdOf = calls.map ToolCall.id := by
  intro calls
  induction calls with
  | nil => intro count; rfl
  | cons tc rest ih =>
      intro count
      cases hft : findTool tools tc.name with
      | none =>
          simp only [dispatch, hft, List.map, toolIdOf]
          rw [ih count]
      | some t =>
          by_cases hcap : countGet count tc.name ≥ mc
          · simp only [dispatch, hft, if_pos hcap, List.map, toolIdOf]
            rw [ih count]
          · cases hinv : t.invoke tc.args with
            | ok res =>
                simp only [dispatch, hft, if_neg hcap, hinv, List.map, toolIdOf]
                rw [ih]
            | error e =>
                simp only [dispatch, hft, if_neg hcap, hinv, List.map, toolIdOf]
                rw [ih count]

theorem dispatch_all_tool (tools : List Tool) (mc : Nat) :
    ∀ (calls : List ToolCall) (count : List (String × Nat)),
      ((dispatch tools mc calls count).1).all isToolB = true := by
  intro calls
  induction calls with
  | nil => intro count; rfl
  | cons tc rest ih =>
      intro count
      cases hft : findTool tools tc.name with
      | none =>
          simp only [dispatch, hft, List.all_cons, isToolB, Bool.true_and]
          exact ih count
      | some t =>
          by_cases hcap : countGet count tc.name ≥ mc
          · simp only [dispatch, hft, if_pos hcap, List.all_cons, isToolB, Bool.true_and]
            exact ih count
          · cases hinv : t.invoke tc.args with
            | ok res =>
                simp only [dispatch, hft, if_neg hcap, hinv, List.all_cons, isToolB,
                  Bool.true_and]
                exact ih _
            | error e =>
                simp only [dispatch, hft, if_neg hcap, hinv, List.all_cons, isToolB,
                  Bool.true_and]
                exact ih count

/-- The structured-output schema RetrieveMessageReranked of
src/graph/schema.py: an ordered list of cleaned, deduplicated,
paraphrased statements, most to least relevant. -/
structure RetrieveMessageReranked where
  messages : List String
  deriving DecidableEq, Repr

/-- Result of the reranking step: either the classifier's ranked list,
or the raw tool output passed through unchanged. -/
inductive RerankOutcome where
  | ranked (msgs : List String)
  | raw (s : String)
  deriving DecidableEq, Repr

/-- Modelled from the spec: the Context Reranker function rerank itself
is missing from src/ — only its structured-output schema
RetrieveMessageReranked is declared (src/graph/schema.py).  Per spec
section 4.2 it invokes an external structured classifier with the query
and the raw tool output and, on any failure (classifier error or
malformed result, both surfacing as the classifier's Except.error),
returns the raw output unchanged. -/
def rerank (classifier : String → String → Except String RetrieveMessageReranked)
    (query raw_output : String) : RerankOutcome :=
  match classifier query raw_output with
  | Except.ok r => RerankOutcome.ranked r.messages
  | Except.error _ => RerankOutcome.raw raw_output

/-- A model stub that answers immediately without tool calls. -/
def okModel : ModelFn := fun _ => Except.ok ⟨"Hi there!", []⟩

/-- A fresh thread holding one user message. -/
def helloG : GraphState :=
  ⟨[(1, Message.human (Content.text "Hello"))], [], "", [], none⟩

/-- The thread the hello exchange ends in. -/
def helloFinalG : GraphState :=
  ⟨[(1, Message.human (Content.text "Hello")), (2, Message.ai "Hi there!" [])],
   [], "", [], none⟩

/-- A registered search tool whose invocation always raises. -/
def failingSearchTool : Tool := ⟨"search_aou_site", fun _ => Except.error "boom"⟩

/-- A registered search tool whose invocation always succeeds. -/
def okSearchTool : Tool := ⟨"search_aou_site", fun _ => Except.ok "found it"⟩

/-- A scripted model: it requests the search tool once and, as soon as
a ToolMessage is in its input, answers with tool-call-free text. -/
def scriptedModel : ModelFn := fun msgs =>
  if countTool msgs = 0 then
    Except.ok ⟨"", [⟨"search_aou_site", "TM354 tutor", "c1"⟩]⟩
  else
    Except.ok ⟨"final answer", []⟩

/-- A fresh thread asking a question the model resolves with one tool
round-trip. -/
def tm354G : GraphState :=
  ⟨[(1, Message.human (Content.text "who tutors TM354?"))], [], "", [], none⟩

/-- C2: evaluation of the exchange at the failing input.  One tool
round-trip ends, after cleanup, in a thread that still holds the
ToolMessage and both AssistantTurns (1 ToolResult, 2 AssistantTurns,
1 UserTurn): cleanup_state returns existing channel objects, which the
add_messages reducer merges by id in place, evicting nothing, so the
bound of at most one AssistantTurn and zero ToolResults claimed (and
announced by the node's own docstring) fails. -/
theorem cleanup_retains_tool_results :
    (runExchange [] scriptedModel [okSearchTool] 5 tm354G).map
        (fun g => (countTool (channelMsgs g), countAI (channelMsgs g),
                   countHuman (channelMsgs g)))
      = Except.ok (1, 2, 1) := by
  rfl

/-- C3: on a thread holding two user turns, cleanup keeps the FIRST
HumanMessage (its forward scan breaks at the first hit, despite the
source comment saying to find the last user message), not the most
recent one, together with the most recent substantive AssistantTurn. -/
theorem cleanup_keeps_first_human :
    (cleanup_state ⟨[Message.human (Content.text "first question"),
        Message.ai "first answer" [],
        Message.human (Content.text "second question"),
        Message.ai "second answer" []], [], "", [], none⟩).messages
      = [Message.human (Content.text "first question"),
         Message.ai "second answer" []] := by
  rfl

theorem isToolB_not_system (m : Message) (h : isToolB m = true) :
    isSystemB m = false := by
  cases m <;> simp_all [isToolB, isSystemB]

theorem countSystem_eq_zero_iff (msgs : List Message) :
    countSystem msgs = 0 ↔ ∀ m ∈ msgs, isSystemB m = false := by
  simp [countSystem, List.length_eq_zero, List.filter_eq_nil_iff]

theorem addMessages_no_system :
    ∀ (upd : List (Option Nat × Message)) (channel : List (Nat × Message)),
      (∀ p ∈ channel, isSystemB p.2 = false) →
      (∀ q ∈ upd, isSystemB q.2 = false) →
      ∀ p ∈ addMessages channel upd, isSystemB p.2 = false := by
  intro upd
  induction upd with
  | nil => intro channel hch _ p hp; exact hch p hp
  | cons q rest ih =>
      intro channel hch hupd
      obtain ⟨oid, m⟩ := q
      have hm : isSystemB m = false := hupd (oid, m) (List.mem_cons_self _ _)
      have hrest : ∀ q ∈ rest, isSystemB q.2 = false :=
        fun q hq => hupd q (List.mem_cons_of_mem _ hq)
      cases oid with
      | some i =>
          by_cases hin : channel.any (fun p => p.1 = i)
          · simp only [addMessages, if_pos hin]
            refine ih _ ?_ hrest
            intro p hp
            obtain ⟨p0, hp0, rfl⟩ := List.mem_map.mp hp
            by_cases hpi : p0.1 = i
            · simpa [hpi] using hm
            · simpa [hpi] using hch p0 hp0
          · simp only [addMessages, if_neg hin]
            refine ih _ ?_ hrest
            intro p hp
            rcases List.mem_append.mp hp with h1 | h2
            · exact hch p h1
            · rw [List.mem_singleton.mp h2]
              exact hm
      | none =>
          simp only [addMessages]
          refine ih _ ?_ hrest
          intro p hp
          rcases List.mem_append.mp hp with h1 | h2
          · exact hch p h1
          · rw [List.mem_singleton.mp h2]
            exact hm

theorem retrieval_node_no_system (collections : List Collection)
    (g g1 : GraphState)
    (hg : ∀ p ∈ g.messages, isSystemB p.2 = false)
    (h : retrieval_node collections g = Except.ok g1) :
    ∀ p ∈ g1.messages, isSystemB p.2 = false := by
  rw [retrieval_node] at h
  split at h
  · exact absurd h (by simp)
  · injection h with h
    subst h
    refine addMessages_no_system _ _ hg ?_
    intro q hq
    obtain ⟨p0, hp0, rfl⟩ := List.mem_map.mp hq
    exact hg p0 hp0

theorem call_llm_no_system (model : ModelFn) (g g1 : GraphState)
    (hg : ∀ p ∈ g.messages, isSystemB p.2 = false)
    (h : call_llm model g = Except.ok g1) :
    ∀ p ∈ g1.messages, isSystemB p.2 = false := by
  rw [call_llm] at h
  split at h
  · exact absurd h (by simp)
  · injection h with h
    subst h
    refine addMessages_no_system _ _ hg ?_
    intro q hq
    rw [List.mem_singleton.mp hq]
    rfl

theorem tool_handler_node_no_system (tools : List Tool) (g : GraphState)
    (hg : ∀ p ∈ g.messages, isSystemB p.2 = false) :
    ∀ p ∈ (tool_handler_node tools g).messages, isSystemB p.2 = false := by
  simp only [tool_handler_node]
  refine addMessages_no_system _ _ hg ?_
  intro q hq
  obtain ⟨m, hm, rfl⟩ := List.mem_map.mp hq
  exact isToolB_not_system m
    (List.all_eq_true.mp (dispatch_all_tool tools _ _ _) m hm)

theorem cleanup_node_no_system (g : GraphState)
    (hg : ∀ p ∈ g.messages, isSystemB p.2 = false) :
    ∀ p ∈ (cleanup_node g).messages, isSystemB p.2 = false := by
  simp only [cleanup_node]
  refine addMessages_no_system _ _ hg ?_
  intro q hq
  simp only [cleanupUpdate] at hq
  obtain ⟨p0, hp0, rfl⟩ := List.mem_map.mp hq
  show isSystemB p0.2 = false
  rcases List.mem_append.mp hp0 with h1 | h2
  · cases hf : g.messages.find? (fun p => isHumanB p.2) with
    | none => rw [hf] at h1; simp at h1
    | some ph =>
        rw [hf] at h1
        rw [List.mem_singleton.mp h1]
        have hhum : isHumanB ph.2 = true := by simpa using List.find?_some hf
        obtain ⟨c, hc⟩ := isHumanB_shape ph.2 hhum
        rw [hc]
        rfl
  · cases hf : g.messages.reverse.find? (fun p => isFinalAI p.2) with
    | none => rw [hf] at h2; simp at h2
    | some pa =>
        rw [hf] at h2
        rw [List.mem_singleton.mp h2]
        have hai : isFinalAI pa.2 = true := by simpa using List.find?_some hf
        obtain ⟨c, tcs, hc⟩ := isFinalAI_shape pa.2 hai
        rw [hc]
        rfl

theorem loop_no_system (model : ModelFn) (tools : List Tool) :
    ∀ (fuel : Nat) (g g' : GraphState),
      (∀ p ∈ g.messages, isSystemB p.2 = false) →
      loop model tools fuel g = Except.ok g' →
      ∀ p ∈ g'.messages, isSystemB p.2 = false := by
  intro fuel
  induction fuel with
  | zero => intro g g' _ h; exact absurd h (by simp [loop])
  | succ n ih =>
      intro g g' hg h
      rw [loop] at h
      split at h
      · exact absurd h (by simp)
      · rename_i g1 heq
        have hg1 := call_llm_no_system model g g1 hg heq
        split at h
        · exact ih _ _ (tool_handler_node_no_system tools g1 hg1) h
        · injection h with h
          subst h
          exact cleanup_node_no_system g1 hg1
        · exact absurd h (by simp)

/-- C4 counterexample: a completed hello exchange leaves a thread with
zero Directive (system) messages, refuting that exactly one Directive
exists and sits first — call_llm only appends the system prompt to the
model-invocation input and never stores it in the channel. -/
theorem directive_counterexample :
    (runExchange [] okModel [] 1 helloG).map (fun g => countSystem (channelMsgs g))
        = Except.ok 0
      ∧ (runExchange [] okModel [] 1 helloG).map (fun g => countSystem (channelMsgs g))
        ≠ Except.ok 1 := by
  constructor
  · rfl
  · have h0 : (runExchange [] okModel [] 1 helloG).map
        (fun g => countSystem (channelMsgs g)) = Except.ok 0 := rfl
    rw [h0]
    simp

/-- C4 (amended): a thread whose history holds no Directive still holds
none after any completed exchange — every node update merged into the
channel consists of human, assistant or tool messages only, and the
directive prompt exists solely inside each model invocation's input,
never in the persisted history. -/
theorem no_directive_in_history (collections : List Collection) (model : ModelFn)
    (tools : List Tool) (fuel : Nat) (g g' : GraphState)
    (hg : countSystem (channelMsgs g) = 0)
    (h : runExchange collections model tools fuel g = Except.ok g') :
    countSystem (channelMsgs g') = 0 := by
  rw [countSystem_eq_zero_iff] at hg ⊢
  have hg2 : ∀ p ∈ g.messages, isSystemB p.2 = false := by
    intro p hp
    exact hg p.2 (List.mem_map_of_mem _ hp)
  intro m hm
  obtain ⟨p, hp, rfl⟩ := List.mem_map.mp hm
  rw [runExchange] at h
  split at h
  · exact absurd h (by simp)
  · rename_i g1 heq
    exact loop_no_system model tools fuel g1 g'
      (retrieval_node_no_system collections g g1 hg2 heq) h p hp

/-- C4 witness: the hello exchange starts and ends with a
directive-free thread. -/
theorem no_directive_in_history_witness :
    countSystem (channelMsgs helloFinalG) = 0 :=
  no_directive_in_history [] okModel [] 1 helloG helloFinalG (by rfl) (by rfl)

/-- C5: after a model invocation appends its reply, the conditional
edge routes to tool dispatch exactly when the reply carries tool calls
and to cleanup exactly when it carries none; tool dispatch always
returns to model invocation and cleanup always reaches the terminal
state. -/
theorem routing_iff (msgs : List Message) (response : Message) :
    (graphStep (msgs ++ [response]) Node.callLlm = some Node.toolHandlerNode
        ↔ toolCallsOf response ≠ [])
      ∧ (graphStep (msgs ++ [response]) Node.callLlm = some Node.cleanupNode
        ↔ toolCallsOf response = [])
      ∧ graphStep (msgs ++ [response]) Node.toolHandlerNode = some Node.callLlm
      ∧ graphStep (msgs ++ [response]) Node.cleanupNode = some Node.END := by
  have hlast : (msgs ++ [response]).getLast? = some response :=
    List.getLast?_concat msgs
  refine ⟨?_, ?_, rfl, rfl⟩
  · simp only [graphStep, should_continue, hlast]
    by_cases he : toolCallsOf response = [] <;> simp [he]
  · simp only [graphStep, should_continue, hlast]
    by_cases he : toolCallsOf response = [] <;> simp [he]

/-- C5 witness: a reply with a tool call routes to dispatch and one
without routes to cleanup. -/
theorem routing_iff_witness :
    graphStep [Message.ai "" [⟨"search_aou_site", "q", "1"⟩]] Node.callLlm
        = some Node.toolHandlerNode
      ∧ graphStep [Message.ai "done" []] Node.callLlm = some Node.cleanupNode :=
  ⟨(routing_iff [] (Message.ai "" [⟨"search_aou_site", "q", "1"⟩])).1.mpr
      (by simp [toolCallsOf]),
   (routing_iff [] (Message.ai "done" [])).2.1.mpr rfl⟩

/-- C6: the dispatcher is total — every produced item is a ToolResult;
an unknown tool name yields a ToolResult naming it, a registered tool
at its cap yields the warning ToolResult, and an invocation exception
is caught and converted to a ToolResult referencing the tool name and
the error, with no counter increment. -/
theorem dispatcher_never_raises (tools : List Tool) (maxOpt : Option Nat) :
    (∀ (calls : List ToolCall) (count : List (String × Nat)),
        ((tool_handler tools maxOpt calls count).1).all isToolB = true)
      ∧ (∀ (tc : ToolCall) (rest : List ToolCall) (count : List (String × Nat)),
          findTool tools tc.name = none →
          tool_handler tools maxOpt (tc :: rest) count
            = (Message.tool (notFoundText tc.name) tc.id
                 :: (tool_handler tools maxOpt rest count).1,
               (tool_handler tools maxOpt rest count).2))
      ∧ (∀ (tc : ToolCall) (rest : List ToolCall) (count : List (String × Nat))
            (t : Tool),
          findTool tools tc.name = some t →
          countGet count tc.name ≥ maxOpt.getD 2 →
          tool_handler tools maxOpt (tc :: rest) count
            = (Message.tool (warningText tc.name (countGet count tc.name)) tc.id
                 :: (tool_handler tools maxOpt rest count).1,
               (tool_handler tools maxOpt rest count).2))
      ∧ (∀ (tc : ToolCall) (rest : List ToolCall) (count : List (String × Nat))
            (t : Tool) (e : String),
          findTool tools tc.name = some t →
          ¬ countGet count tc.name ≥ maxOpt.getD 2 →
          t.invoke tc.args = Except.error e →
          tool_handler tools maxOpt (tc :: rest) count
            = (Message.tool (execErrorText tc.name e) tc.id
                 :: (tool_handler tools maxOpt rest count).1,
               (tool_handler tools maxOpt rest count).2.1,
               (tc.name, false) :: (tool_handler tools maxOpt rest count).2.2)) := by
  refine ⟨fun calls count => dispatch_all_tool tools _ calls count, ?_, ?_, ?_⟩
  · intro tc rest count hft
    simp only [tool_handler, dispatch, hft]
  · intro tc rest count t hft hcap
    simp only [tool_handler, dispatch, hft, if_pos hcap]
  · intro tc rest count t e hft hcap hinv
    simp only [tool_handler, dispatch, hft, if_neg hcap, hinv]

/-- C6 witness: an unknown tool name and a raising tool both come back
as ToolResults. -/
theorem dispatcher_never_raises_witness :
    tool_handler [failingSearchTool] none [⟨"made_up_tool", "q", "7"⟩] []
        = ([Message.tool (notFoundText "made_up_tool") "7"], [], [])
      ∧ tool_handler [failingSearchTool] none [⟨"search_aou_site", "q", "8"⟩] []
        = ([Message.tool (execErrorText "search_aou_site" "boom") "8"], [],
           [("search_aou_site", false)]) :=
  ⟨(dispatcher_never_raises [failingSearchTool] none).2.1
      ⟨"made_up_tool", "q", "7"⟩ [] [] (by rfl),
   (dispatcher_never_raises [failingSearchTool] none).2.2.2
      ⟨"search_aou_site", "q", "8"⟩ [] [] failingSearchTool "boom"
      (by rfl) (by decide) (by rfl)⟩

/-- C7: for an AssistantTurn carrying tool requests, the dispatcher
produces exactly one ToolResult per request, in request order, each
tagged with the identifier of the originating request. -/
theorem one_result_per_request (tools : List Tool) (maxOpt : Option Nat)
    (count : List (String × Nat)) (content : String) (tcs : List ToolCall) :
    ((tool_handler tools maxOpt (toolCallsOf (Message.ai content tcs)) count).1).map toolIdOf
        = tcs.map ToolCall.id
      ∧ ((tool_handler tools maxOpt (toolCallsOf (Message.ai content tcs)) count).1).length
        = tcs.length := by
  have h := dispatch_ids tools (maxOpt.getD 2) tcs count
  refine ⟨h, ?_⟩
  have h2 := congrArg List.length h
  simpa using h2

/-- C8: whenever the structured classifier fails on the given inputs,
rerank returns the raw output unchanged; and when the classifier always
fails, rerank is the identity on its raw-output argument. -/
theorem rerank_fallback
    (classifier : String → String → Except String RetrieveMessageReranked) :
    (∀ (q raw e : String), classifier q raw = Except.error e →
        rerank classifier q raw = RerankOutcome.raw raw)
      ∧ ((∀ (q raw : String) (r : RetrieveMessageReranked),
            classifier q raw ≠ Except.ok r) →
        ∀ (q raw : String), rerank classifier q raw = RerankOutcome.raw raw) := by
  constructor
  · intro q raw e h
    simp only [rerank, h]
  · intro hall q raw
    cases hc : classifier q raw with
    | ok r => exact absurd hc (hall q raw r)
    | error e => simp only [rerank, hc]

/-- A classifier stub that always fails. -/
def alwaysFailingClassifier : String → String → Except String RetrieveMessageReranked :=
  fun _ _ => Except.error "classifier failure"

/-- C8 witness: a failing classifier leaves the raw output untouched. -/
theorem rerank_fallback_witness :
    rerank alwaysFailingClassifier "TM354 tutor" "raw tool output"
      = RerankOutcome.raw "raw tool output" :=
  (rerank_fallback alwaysFailingClassifier).1 "TM354 tutor" "raw tool output"
    "classifier failure" rfl

/-- C9: an exception raised by the model invocation is not caught
anywhere in the exchange: the whole exchange fails with exactly that
error, and no recovery ToolResult or state is produced for it. -/
theorem model_failure_propagates (collections : List Collection) (model : ModelFn)
    (tools : List Tool) (fuel : Nat) (g : GraphState) (e : String)
    (hmsgs : g.messages ≠ [])
    (hmodel : ∀ input, model input = Except.error e) :
    runExchange collections model tools (fuel + 1) g = Except.error e := by
  rw [runExchange]
  have hne : channelMsgs g ≠ [] := by
    intro hnil
    exact hmsgs (List.map_eq_nil_iff.mp hnil)
  cases hlast : (channelMsgs g).getLast? with
  | none => exact absurd (List.getLast?_eq_none_iff.mp hlast) hne
  | some last_message =>
      simp only [retrieval_node, retrieval, nodeState, hlast]
      by_cases hq : extractText (msgContent last_message) = ""
      · simp only [if_pos hq]
        simp [loop, call_llm, hmodel]
      · simp only [if_neg hq]
        simp [loop, call_llm, hmodel]

/-- A model stub whose invocation always raises. -/
def failingModel : ModelFn := fun _ => Except.error "model down"

/-- C9 witness: the hello exchange against a failing model fails with
the model's error. -/
theorem model_failure_propagates_witness :
    runExchange [] failingModel [] 1 helloG = Except.error "model down" :=
  model_failure_propagates [] failingModel [] 0 helloG "model down"
    (by decide) (fun _ => rfl)

/-- The empty input state: Python state["messages"][-1] raises
IndexError here. -/
def emptyState : AgentState := ⟨[], [], "", [], none⟩

/-- C10 counterexample: on the state with an empty message list the
retrieval node raises (IndexError from messages[-1]) instead of
returning a result, refuting totality over every input state. -/
theorem retrieval_empty_messages_raises :
    retrieval [] emptyState = Except.error "IndexError: list index out of range" :=
  rfl

/-- C10 (amended): on every input state with a non-empty message list
the retrieval node is total: it always returns a result; an empty
extracted query yields the empty update whatever the collections would
answer; and an exception from one collection's query is caught so the
remaining collections are still queried. -/
theorem retrieval_total (collections : List Collection) (s : AgentState)
    (hmsgs : s.messages ≠ []) :
    (∃ u, retrieval collections s = Except.ok u)
      ∧ (∀ last_message, s.messages.getLast? = some last_message →
          extractText (msgContent last_message) = "" →
          retrieval collections s = Except.ok ⟨[], "", s.messages⟩)
      ∧ (∀ (c : Collection) (rest : List Collection) (q e : String),
          c.query q = Except.error e →
          gatherResults (c :: rest) q = gatherResults rest q) := by
  refine ⟨?_, ?_, ?_⟩
  · cases hlast : s.messages.getLast? with
    | none => exact absurd (List.getLast?_eq_none_iff.mp hlast) hmsgs
    | some last_message =>
        by_cases hq : extractText (msgContent last_message) = ""
        · exact ⟨⟨[], "", s.messages⟩,
            by simp only [retrieval, hlast, if_pos hq]⟩
        · exact ⟨⟨gatherResults collections (extractText (msgContent last_message)),
              extractText (msgContent last_message), s.messages⟩,
            by simp only [retrieval, hlast, if_neg hq]⟩
  · intro last_message hlast hq
    simp only [retrieval, hlast, if_pos hq]
  · intro c rest q e hq
    simp only [gatherResults, hq]

/-- A state whose last message extracts to the empty query. -/
def emptyQueryState : AgentState :=
  ⟨[Message.human (Content.text "")], [], "", [], none⟩

/-- A collection whose query always raises. -/
def boomCollection : Collection := ⟨fun _ => Except.error "connection refused"⟩

/-- C10 witness: with a raising collection, the empty query returns the
empty update and the error-skipping step holds concretely. -/
theorem retrieval_total_witness :
    retrieval [boomCollection] emptyQueryState
        = Except.ok ⟨[], "", [Message.human (Content.text "")]⟩
      ∧ gatherResults [boomCollection] "TM354 tutor" = gatherResults [] "TM354 tutor" :=
  ⟨(retrieval_total [boomCollection] emptyQueryState (by decide)).2.1
      (Message.human (Content.text "")) rfl rfl,
   (retrieval_total [boomCollection] emptyQueryState (by decide)).2.2
      boomCollection [] "TM354 tutor" "connection refused" rfl⟩

end AOUNet
